import Mathlib

/-!
Verification of the article selection-and-summarization pipeline of
`newsletter_generator.py` (AI_newsletter repository).

Strings of the Python program are modelled as `List Char`; the text-generation
backend (the two LLM runner instances) is modelled as a function from the
prompt to the concatenated textual response (`List Char → List Char`), one
function per instruction profile (selection / summarization); the HTTP fetch
is modelled by its outcome.  All definitions below are translated from
`newsletter_generator.py`; definitions whose doc comment says so are instead
written from the specification's wording, for refinement comparison.
-/

/-- `String` literal to the `List Char` representation used throughout. -/
def strL (s : String) : List Char := s.toList

/-- Python `str.lower()` (character-wise, as in CPython for the ASCII range). -/
def lowerStr (s : List Char) : List Char := s.map Char.toLower

/-- Python `str.upper()`. -/
def upperStr (s : List Char) : List Char := s.map Char.toUpper

/-- Python `str.strip()`: drop leading and trailing whitespace. -/
def stripChars (s : List Char) : List Char :=
  ((s.dropWhile Char.isWhitespace).reverse.dropWhile Char.isWhitespace).reverse

/-- Python `sep.join(parts)`. -/
def joinSep (sep : List Char) : List (List Char) → List Char
  | [] => []
  | [x] => x
  | x :: y :: rest => x ++ sep ++ joinSep sep (y :: rest)

/-- Executable test that `s` begins the list `t` (helper for `pyIn`). -/
def pyPre : List Char → List Char → Bool
  | [], _ => true
  | _ :: _, [] => false
  | a :: s, b :: t => a == b && pyPre s t

/-- Python's substring operator `sub in big` on strings: `sub` occurs
contiguously inside `big`. -/
def pyIn (sub : List Char) : List Char → Bool
  | [] => pyPre sub []
  | b :: rest => pyPre sub (b :: rest) || pyIn sub rest

/-- The mathematical contiguous-substring relation. -/
def isSubstr (sub big : List Char) : Prop := ∃ s t, s ++ (sub ++ t) = big

/-- One news article record, as produced by `rss_feeds.py` and consumed by
`newsletter_generator.py` (a CSV row turned into a dict with keys
`title`, `link`, `published`, `source`, `category`; `summary` is the key
added by the pipeline). -/
structure Article where
  title : List Char
  link : List Char
  source : List Char
  category : List Char
  published : List Char
  summary : Option (List Char) := none
deriving DecidableEq, Inhabited

/-- Lines 150 of the source: split the selector response on newlines, keep
lines longer than 5 characters, lower-case them. -/
def respLines (response : List Char) : List (List Char) :=
  ((response.splitOn '\n').filter (fun l => 5 < l.length)).map lowerStr

/-- Line 152: the bidirectional containment test between the (already
lower-cased) title and the surviving response lines. -/
def titleMatches (lines : List (List Char)) (title : List Char) : Bool :=
  lines.any (fun line => pyIn title line || pyIn line title)

/-- Lines 147-155: scan the articles in order, collecting those whose
lower-cased title matches a response line, stopping once `need` (initially 2)
articles have been collected. -/
def scanSelectAux (lines : List (List Char)) : Nat → List Article → List Article
  | _, [] => []
  | need, a :: rest =>
    if titleMatches lines (lowerStr a.title) then
      if need ≤ 1 then [a]
      else a :: scanSelectAux lines (need - 1) rest
    else scanSelectAux lines need rest

/-- Line 127: `"\n".join(f"- {article['title']}" for article in articles[:20])`. -/
def selectTitlesText (articles : List Article) : List Char :=
  joinSep (strL "\n") ((articles.take 20).map (fun a => strL "- " ++ a.title))

/-- Lines 128-131: the selection prompt. -/
def selectPrompt (category : List Char) (articles : List Article) : List Char :=
  strL "Category: " ++ upperStr category ++
    strL "\n\nHere are the article titles:\n" ++ selectTitlesText articles ++
    strL "\n\nSelect the two strongest choices."

/-- Lines 122-157: `select_top_articles`.  `judgeSel` models the selection
LLM runner (prompt to concatenated response text); the second component
counts how many judgment calls were made. -/
def select_top_articles (category : List Char) (articles : List Article)
    (judgeSel : List Char → List Char) : List Article × Nat :=
  if articles.length ≤ 2 then (articles, 0)
  else if judgeSel (selectPrompt category articles) = [] then (articles.take 2, 1)
  else if (scanSelectAux (respLines (judgeSel (selectPrompt category articles))) 2 articles).length = 2
    then (scanSelectAux (respLines (judgeSel (selectPrompt category articles))) 2 articles, 1)
    else (articles.take 2, 1)

/-- The possible outcomes of the HTTP + HTML-parsing part of
`fetch_article_content` (lines 59-69): either some exception was raised
(non-2xx status via `raise_for_status`, transport error, parse error), or it
succeeded and the document yielded this list of `<p>`-element texts after the
non-content tags were decomposed. -/
inductive FetchOutcome where
  | failure : FetchOutcome
  | success : List (List Char) → FetchOutcome
deriving DecidableEq

/-- Lines 57-75: `fetch_article_content`, as a function of the fetch/parse
outcome: join the stripped paragraph texts with single spaces and truncate to
5000 characters; any exception yields the empty string. -/
def fetch_article_content : FetchOutcome → List Char
  | FetchOutcome.failure => []
  | FetchOutcome.success paras =>
      if 5000 < (joinSep [' '] (paras.map stripChars)).length
      then (joinSep [' '] (paras.map stripChars)).take 5000
      else joinSep [' '] (paras.map stripChars)

/-- Lines 172-175: the degraded title-and-link-only summarization prompt. -/
def degradedPrompt (title url : List Char) : List Char :=
  strL "Article Title: " ++ title ++ strL "\nArticle URL: " ++ url ++
    strL "\n\nProvide a likely 3-line summary based on the title."

/-- Lines 165-175: the summarization prompt, content-grounded when the
available content is non-empty. -/
def summarizePrompt (title url content : List Char) : List Char :=
  if content ≠ [] then
    strL "Article Title: " ++ title ++ strL "\nArticle URL: " ++ url ++
      strL "\n\nArticle Content:\n" ++ content.take 3000 ++
      strL "\n\nProvide a 3-line summary."
  else degradedPrompt title url

/-- Lines 162-163: `if not content: content = fetch_article_content(url)` —
the content the summarizer actually works with (`fetchF` models
`fetch_article_content` applied to this run's network world). -/
def availableContent (url : List Char) (content? : Option (List Char))
    (fetchF : List Char → List Char) : List Char :=
  match content? with
  | none => fetchF url
  | some c => if c = [] then fetchF url else c

/-- Lines 160-188: `summarize_article`.  `judgeSum` models the summarizer
LLM runner.  Note the source tests `summary_text` for emptiness BEFORE
stripping it (line 188). -/
def summarize_article (title url : List Char) (content? : Option (List Char))
    (fetchF judgeSum : List Char → List Char) : List Char :=
  if judgeSum (summarizePrompt title url (availableContent url content? fetchF)) = []
  then strL "Summary unavailable."
  else stripChars (judgeSum (summarizePrompt title url (availableContent url content? fetchF)))

/-- Lines 197-200: a fresh copy of the article with the produced summary
attached (`item = article.copy(); item["summary"] = summary`). -/
def enrichArticle (fetchF judgeSum : List Char → List Char) (a : Article) : Article :=
  { a with summary := some (summarize_article a.title a.link none fetchF judgeSum) }

/-- Lines 191-202: `process_category` (value-level view). -/
def process_category (category : List Char) (articles : List Article)
    (judgeSel judgeSum fetchF : List Char → List Char) : List Article :=
  ((select_top_articles category articles judgeSel).1).map (enrichArticle fetchF judgeSum)

/-- First-occurrence-order deduplication, as `pandas.Series.unique` used on
line 52 (`df['category'].unique()` keeps the first occurrence of each value). -/
def uniqueFirst (seen : List (List Char)) : List (List Char) → List (List Char)
  | [] => []
  | c :: rest => if c ∈ seen then uniqueFirst seen rest else c :: uniqueFirst (c :: seen) rest

/-- Lines 49-54: `get_articles_by_category` — group the CSV rows by their
`category` column, keys in first-occurrence order. -/
def get_articles_by_category (rows : List Article) : List (List Char × List Article) :=
  (uniqueFirst [] (rows.map (fun r => r.category))).map
    (fun c => (c, rows.filter (fun r => r.category == c)))

/-- Lines 359-362 of `main`: the pipeline driver loop — for every category of
the input mapping, in insertion order, bind the processed list under the same
key.  (The source has no skip for empty input lists here.) -/
def mainDriver (judgeSel judgeSum fetchF : List Char → List Char)
    (pools : List (List Char × List Article)) : List (List Char × List Article) :=
  pools.map (fun p => (p.1, process_category p.1 p.2 judgeSel judgeSum fetchF))

/-- Modelled from the spec's wording of the Selector's matching rule (§4.3):
split the response into lines, discard lines of length ≤ 5, lower-case both
response lines and candidate titles, and count an article as matched iff its
lowercased title is a substring of some surviving line or some surviving line
is a substring of the lowercased title (boolean form). -/
def specMatchB (response title : List Char) : Bool :=
  ((response.splitOn '\n').filter (fun l => 5 < l.length)).any
    (fun line => pyIn (lowerStr title) (lowerStr line) || pyIn (lowerStr line) (lowerStr title))

/-- Modelled from the spec's wording of the Selector's matching rule (§4.3),
propositional form, with substring meant mathematically. -/
def specMatched (response title : List Char) : Prop :=
  ∃ line ∈ (response.splitOn '\n').filter (fun l => 5 < l.length),
    isSubstr (lowerStr title) (lowerStr line) ∨ isSubstr (lowerStr line) (lowerStr title)

/-- Modelled from the spec's wording (§4.3): scan articles in original order
and stop once 2 matches are found — equivalently, the first 2 matched
articles in input order. -/
def specSelection (articles : List Article) (response : List Char) : List Article :=
  (articles.filter (fun a => specMatchB response a.title)).take 2

theorem pyPre_iff (s : List Char) : ∀ t : List Char, pyPre s t = true ↔ ∃ u, s ++ u = t := by
  induction s with
  | nil => intro t; simp [pyPre]
  | cons a s ih =>
    intro t
    cases t with
    | nil => simp [pyPre]
    | cons b t =>
      simp only [pyPre, Bool.and_eq_true, beq_iff_eq, ih t, List.cons_append, List.cons.injEq]
      constructor
      · rintro ⟨rfl, u, rfl⟩; exact ⟨u, rfl, rfl⟩
      · rintro ⟨u, rfl, rfl⟩; exact ⟨rfl, u, rfl⟩

theorem pyIn_iff (sub : List Char) : ∀ big : List Char, pyIn sub big = true ↔ isSubstr sub big := by
  intro big
  induction big with
  | nil =>
    simp only [pyIn, pyPre_iff, isSubstr]
    constructor
    · rintro ⟨u, hu⟩
      rcases List.append_eq_nil.mp hu with ⟨rfl, rfl⟩
      exact ⟨[], [], rfl⟩
    · rintro ⟨s, t, h⟩
      rcases List.append_eq_nil.mp h with ⟨rfl, h2⟩
      rcases List.append_eq_nil.mp h2 with ⟨rfl, rfl⟩
      exact ⟨[], rfl⟩
  | cons b rest ih =>
    simp only [pyIn, Bool.or_eq_true, pyPre_iff, ih, isSubstr]
    constructor
    · rintro (⟨u, hu⟩ | ⟨s, t, h⟩)
      · exact ⟨[], u, hu⟩
      · exact ⟨b :: s, t, by rw [← h]; rfl⟩
    · rintro ⟨s, t, h⟩
      cases s with
      | nil => exact Or.inl ⟨t, by simpa using h⟩
      | cons c s =>
        rcases (List.cons.injEq ..).mp h with ⟨rfl, h2⟩
        exact Or.inr ⟨s, t, h2⟩

theorem isSubstr_self (x : List Char) : isSubstr x x := ⟨[], [], by simp⟩

theorem isSubstr_append_left (s : List Char) {x t : List Char} (h : isSubstr x t) :
    isSubstr x (s ++ t) := by
  rcases h with ⟨u, v, h⟩
  exact ⟨s ++ u, v, by rw [← h]; simp⟩

theorem isSubstr_append_right (t : List Char) {x s : List Char} (h : isSubstr x s) :
    isSubstr x (s ++ t) := by
  rcases h with ⟨u, v, h⟩
  exact ⟨u, v ++ t, by rw [← h]; simp⟩

theorem mem_joinSep (sep : List Char) : ∀ (L : List (List Char)) (x : List Char),
    x ∈ L → isSubstr x (joinSep sep L) := by
  intro L
  induction L with
  | nil => intro x hx; cases hx
  | cons y rest ih =>
    intro x hx
    cases rest with
    | nil =>
      rcases List.mem_singleton.mp hx with rfl
      exact isSubstr_self x
    | cons z rest' =>
      rcases List.mem_cons.mp hx with rfl | hx'
      · show isSubstr x (x ++ sep ++ joinSep sep (z :: rest'))
        rw [List.append_assoc]
        exact isSubstr_append_right _ (isSubstr_self x)
      · show isSubstr x (y ++ sep ++ joinSep sep (z :: rest'))
        rw [List.append_assoc]
        exact isSubstr_append_left _ (isSubstr_append_left _ (ih x hx'))

theorem scanSelectAux_subset (lines : List (List Char)) :
    ∀ (l : List Article) (need : Nat) (a : Article),
      a ∈ scanSelectAux lines need l → a ∈ l := by
  intro l
  induction l with
  | nil => intro need a h; simp [scanSelectAux] at h
  | cons b rest ih =>
    intro need a h
    simp only [scanSelectAux] at h
    by_cases hm : titleMatches lines (lowerStr b.title)
    · rw [if_pos hm] at h
      by_cases hn : need ≤ 1
      · rw [if_pos hn] at h
        rcases List.mem_singleton.mp h with rfl
        exact List.mem_cons_self _ _
      · rw [if_neg hn] at h
        rcases List.mem_cons.mp h with rfl | h'
        · exact List.mem_cons_self _ _
        · exact List.mem_cons_of_mem _ (ih _ a h')
    · rw [if_neg hm] at h
      exact List.mem_cons_of_mem _ (ih _ a h)

theorem scanSelectAux_eq_take_filter (lines : List (List Char)) :
    ∀ (l : List Article) (need : Nat), 1 ≤ need →
      scanSelectAux lines need l
        = (l.filter (fun a => titleMatches lines (lowerStr a.title))).take need := by
  intro l
  induction l with
  | nil => intro need _; simp [scanSelectAux]
  | cons b rest ih =>
    intro need hneed
    simp only [scanSelectAux, List.filter_cons]
    by_cases hm : titleMatches lines (lowerStr b.title)
    · rw [if_pos hm, if_pos hm]
      by_cases hn : need ≤ 1
      · have : need = 1 := by omega
        subst this
        simp
      · rw [if_neg hn, ih (need - 1) (by omega)]
        have : need = (need - 1) + 1 := by omega
        rw [this]
        simp
    · rw [if_neg hm, if_neg hm, ih need hneed]

theorem titleMatches_respLines (r t : List Char) :
    titleMatches (respLines r) (lowerStr t) = specMatchB r t := by
  simp [titleMatches, respLines, specMatchB, List.any_map, Function.comp]

theorem scan_eq_specSelection (r : List Char) (articles : List Article) :
    scanSelectAux (respLines r) 2 articles = specSelection articles r := by
  rw [scanSelectAux_eq_take_filter (respLines r) articles 2 (by omega)]
  unfold specSelection
  congr 1
  apply List.filter_congr
  intro a _
  exact titleMatches_respLines r a.title

theorem specMatchB_iff (r t : List Char) : specMatchB r t = true ↔ specMatched r t := by
  simp [specMatchB, specMatched, List.any_eq_true, pyIn_iff, List.mem_filter, and_assoc]

/-- A concrete article record (for witnesses). -/
def artA : Article :=
  { title := strL "alpha news flash", link := strL "http://a", source := strL "srcA",
    category := strL "technology", published := strL "d1" }

/-- A concrete article record (for witnesses). -/
def artB : Article :=
  { title := strL "bravo market wrap", link := strL "http://b", source := strL "srcB",
    category := strL "technology", published := strL "d2" }

/-- A concrete article record (for witnesses). -/
def artC : Article :=
  { title := strL "civic hall vote", link := strL "http://c", source := strL "politics",
    category := strL "technology", published := strL "d3" }

/-- C6: for every category name and every input list of at most 2 articles,
the Selector returns exactly the input list unchanged, order preserved, and
makes zero judgment calls. -/
theorem selector_trivial_small_input (category : List Char) (articles : List Article)
    (judgeSel : List Char → List Char) (h : articles.length ≤ 2) :
    select_top_articles category articles judgeSel = (articles, 0) := by
  simp [select_top_articles, h]

/-- Witness for C6 at a concrete two-article input. -/
theorem selector_trivial_small_input_witness :
    [artA, artB].length ≤ 2
      ∧ select_top_articles (strL "sports") [artA, artB] (fun _ => strL "noise")
          = ([artA, artB], 0) :=
  ⟨by decide, selector_trivial_small_input _ _ _ (by decide)⟩

/-- C3: for every category, every input list of more than 2 articles and
every judgment response, the Selector returns exactly 2 articles, each an
element of the input list (never fabricated). -/
theorem selector_returns_two_from_input (category : List Char) (articles : List Article)
    (judgeSel : List Char → List Char) (h : 2 < articles.length) :
    (select_top_articles category articles judgeSel).1.length = 2
      ∧ ∀ a ∈ (select_top_articles category articles judgeSel).1, a ∈ articles := by
  have hn : ¬ articles.length ≤ 2 := by omega
  unfold select_top_articles
  rw [if_neg hn]
  by_cases hr : judgeSel (selectPrompt category articles) = []
  · rw [if_pos hr]
    refine ⟨?_, fun a ha => List.take_subset _ _ ha⟩
    simp only [List.length_take]
    omega
  · rw [if_neg hr]
    by_cases hlen :
        (scanSelectAux (respLines (judgeSel (selectPrompt category articles))) 2 articles).length = 2
    · rw [if_pos hlen]
      exact ⟨hlen, fun a ha => scanSelectAux_subset _ _ _ a ha⟩
    · rw [if_neg hlen]
      refine ⟨?_, fun a ha => List.take_subset _ _ ha⟩
      simp only [List.length_take]
      omega

/-- Witness for C3 at a concrete three-article input. -/
theorem selector_returns_two_from_input_witness :
    2 < [artA, artB, artC].length
      ∧ ((select_top_articles (strL "technology") [artA, artB, artC]
            (fun _ => strL "SELECTED:\n1. alpha news flash\n2. civic hall vote")).1.length = 2
          ∧ ∀ a ∈ (select_top_articles (strL "technology") [artA, artB, artC]
              (fun _ => strL "SELECTED:\n1. alpha news flash\n2. civic hall vote")).1,
            a ∈ [artA, artB, artC]) :=
  ⟨by decide, selector_returns_two_from_input _ _ _ (by decide)⟩

/-- C4: for more than 2 input articles, whenever the judgment response is
empty or its parsing yields other than exactly 2 matched articles, the
Selector returns exactly the first 2 articles of the original input. -/
theorem selector_fallback_first_two (category : List Char) (articles : List Article)
    (judgeSel : List Char → List Char) (h : 2 < articles.length)
    (hbad : judgeSel (selectPrompt category articles) = []
      ∨ (specSelection articles (judgeSel (selectPrompt category articles))).length ≠ 2) :
    (select_top_articles category articles judgeSel).1 = articles.take 2 := by
  have hn : ¬ articles.length ≤ 2 := by omega
  unfold select_top_articles
  rw [if_neg hn]
  by_cases hr : judgeSel (selectPrompt category articles) = []
  · rw [if_pos hr]
  · rw [if_neg hr]
    have hbad2 :
        ¬ (scanSelectAux (respLines (judgeSel (selectPrompt category articles))) 2 articles).length = 2 := by
      rw [scan_eq_specSelection]
      rcases hbad with hbad | hbad
      · exact absurd hbad hr
      · exact hbad
    rw [if_neg hbad2]

/-- Witness for C4 at a concrete three-article input with an unparsable
response. -/
theorem selector_fallback_first_two_witness :
    (2 < [artA, artB, artC].length
      ∧ (specSelection [artA, artB, artC]
          ((fun _ => strL "??") (selectPrompt (strL "technology") [artA, artB, artC]))).length ≠ 2)
    ∧ (select_top_articles (strL "technology") [artA, artB, artC] (fun _ => strL "??")).1
        = [artA, artB, artC].take 2 :=
  ⟨⟨by decide, by decide⟩,
    selector_fallback_first_two _ _ _ (by decide) (Or.inr (by decide))⟩

/-- C5: for more than 2 input articles and a non-empty judgment response,
the Selector's behaviour is exactly the spec's algorithm: the prompt depends
only on (and enumerates "- title" for) the first 20 articles; matching
discards response lines of length ≤ 5, lower-cases lines and titles and uses
bidirectional substring containment; articles are scanned in input order
stopping at 2 matches, with the first-2 fallback otherwise. -/
theorem selector_matching_algorithm (category : List Char) (articles : List Article)
    (judgeSel : List Char → List Char) (h : 2 < articles.length)
    (hne : judgeSel (selectPrompt category articles) ≠ []) :
    (selectPrompt category articles = selectPrompt category (articles.take 20))
    ∧ (∀ a ∈ articles.take 20, isSubstr (strL "- " ++ a.title) (selectPrompt category articles))
    ∧ (∀ t, specMatchB (judgeSel (selectPrompt category articles)) t = true
          ↔ specMatched (judgeSel (selectPrompt category articles)) t)
    ∧ ((select_top_articles category articles judgeSel).1
        = if (specSelection articles (judgeSel (selectPrompt category articles))).length = 2
          then specSelection articles (judgeSel (selectPrompt category articles))
          else articles.take 2) := by
  have hn : ¬ articles.length ≤ 2 := by omega
  refine ⟨?_, ?_, ?_, ?_⟩
  · simp [selectPrompt, selectTitlesText, List.take_take]
  · intro a ha
    have hT : isSubstr (strL "- " ++ a.title) (selectTitlesText articles) := by
      apply mem_joinSep
      exact List.mem_map.mpr ⟨a, ha, rfl⟩
    unfold selectPrompt
    exact isSubstr_append_right _ (isSubstr_append_left _ hT)
  · intro t
    exact specMatchB_iff _ t
  · unfold select_top_articles
    rw [if_neg hn, if_neg hne, scan_eq_specSelection]
    by_cases hl : (specSelection articles (judgeSel (selectPrompt category articles))).length = 2
    · rw [if_pos hl, if_pos hl]
    · rw [if_neg hl, if_neg hl]

/-- Witness for C5 at a concrete three-article input with a well-formed
response. -/
theorem selector_matching_algorithm_witness :
    (2 < [artA, artB, artC].length
      ∧ (fun _ => strL "SELECTED:\n1. alpha news flash\n2. civic hall vote")
          (selectPrompt (strL "technology") [artA, artB, artC]) ≠ [])
    ∧ ((select_top_articles (strL "technology") [artA, artB, artC]
          (fun _ => strL "SELECTED:\n1. alpha news flash\n2. civic hall vote")).1
        = if (specSelection [artA, artB, artC]
              ((fun _ => strL "SELECTED:\n1. alpha news flash\n2. civic hall vote")
                (selectPrompt (strL "technology") [artA, artB, artC]))).length = 2
          then specSelection [artA, artB, artC]
              ((fun _ => strL "SELECTED:\n1. alpha news flash\n2. civic hall vote")
                (selectPrompt (strL "technology") [artA, artB, artC]))
          else [artA, artB, artC].take 2) :=
  ⟨⟨by decide, by decide⟩,
    (selector_matching_algorithm _ _ _ (by decide) (by decide)).2.2.2⟩

/-- A concrete article with a given short title (for the C10 scenario). -/
def mkArt (t : String) : Article :=
  { title := strL t, link := strL t, source := [], category := [], published := [] }

/-- 22 articles: a matching first one, 20 fillers, and a matching last one at
position 21 (0-based), outside the 20-article prompt window. -/
def c10articles : List Article :=
  (mkArt "alpha bravo" :: List.replicate 20 (mkArt "filler item x")) ++ [mkArt "golf hotel"]

/-- A selector response naming the first and the last article. -/
def c10response : List Char := strL "1. alpha bravo\n2. golf hotel"

/-- C10: the matching scan runs over the whole input list, not only the 20
articles shown in the prompt: with 22 articles, the article at position 21 —
whose title never appears in the prompt window — is selected because its
title matches a response line. -/
theorem selector_scans_beyond_prompt_window :
    20 < c10articles.length
    ∧ mkArt "golf hotel" ∉ c10articles.take 20
    ∧ (select_top_articles (strL "general") c10articles (fun _ => c10response)).1
        = [mkArt "alpha bravo", mkArt "golf hotel"] := by
  refine ⟨by decide, by decide, by decide⟩

/-- C8: the Content Fetcher is total; it returns the empty string on any
failure outcome, and on success it returns the stripped paragraph texts
joined by single spaces truncated to 5000 characters, so its result length
never exceeds 5000. -/
theorem fetcher_total_bounded :
    fetch_article_content FetchOutcome.failure = []
    ∧ (∀ o, (fetch_article_content o).length ≤ 5000)
    ∧ (∀ ps, fetch_article_content (FetchOutcome.success ps)
        = (joinSep [' '] (ps.map stripChars)).take 5000) := by
  refine ⟨rfl, ?_, ?_⟩
  · intro o
    cases o with
    | failure => simp [fetch_article_content]
    | success ps =>
      simp only [fetch_article_content]
      by_cases h : 5000 < (joinSep [' '] (ps.map stripChars)).length
      · rw [if_pos h]
        simp only [List.length_take]
        omega
      · rw [if_neg h]
        omega
  · intro ps
    simp only [fetch_article_content]
    by_cases h : 5000 < (joinSep [' '] (ps.map stripChars)).length
    · rw [if_pos h]
    · rw [if_neg h, List.take_of_length_le (by omega)]

/-- C2 is refuted by the code: with a whitespace-only judgment response the
Summarizer returns the empty string (line 188 tests emptiness before
stripping), not the fixed placeholder, which is itself non-empty. -/
theorem summarizer_empty_on_whitespace_response :
    summarize_article (strL "t") (strL "http://u") (some (strL "x"))
        (fun _ => []) (fun _ => [' ']) = []
    ∧ strL "Summary unavailable." ≠ [] :=
  ⟨by decide, by decide⟩

/-- C7: the prompt passed to the summarization judgment call.  When the
available (supplied-or-fetched) content is non-empty the prompt contains the
title, the url and exactly the first 3000 characters of that content; when
it is empty the prompt is the degraded title-and-url-only variant asking for
a "likely" summary. -/
theorem summarizer_prompt_content (title url : List Char) (content? : Option (List Char))
    (fetchF judgeSum : List Char → List Char) :
    (summarize_article title url content? fetchF judgeSum
      = if judgeSum (summarizePrompt title url (availableContent url content? fetchF)) = []
        then strL "Summary unavailable."
        else stripChars (judgeSum (summarizePrompt title url (availableContent url content? fetchF))))
    ∧ (availableContent url content? fetchF ≠ [] →
        isSubstr title (summarizePrompt title url (availableContent url content? fetchF))
        ∧ isSubstr url (summarizePrompt title url (availableContent url content? fetchF))
        ∧ isSubstr ((availableContent url content? fetchF).take 3000)
            (summarizePrompt title url (availableContent url content? fetchF)))
    ∧ (availableContent url content? fetchF = [] →
        summarizePrompt title url (availableContent url content? fetchF) = degradedPrompt title url
        ∧ isSubstr (strL "likely") (degradedPrompt title url)) := by
  refine ⟨rfl, ?_, ?_⟩
  · intro hc
    unfold summarizePrompt
    rw [if_pos hc]
    refine ⟨?_, ?_, ?_⟩
    · exact isSubstr_append_right _ (isSubstr_append_right _ (isSubstr_append_right _
        (isSubstr_append_right _ (isSubstr_append_right _
          (isSubstr_append_left _ (isSubstr_self _))))))
    · exact isSubstr_append_right _ (isSubstr_append_right _ (isSubstr_append_right _
        (isSubstr_append_left _ (isSubstr_self _))))
    · exact isSubstr_append_right _ (isSubstr_append_left _ (isSubstr_self _))
  · intro hc
    rw [hc]
    refine ⟨by simp [summarizePrompt], ?_⟩
    unfold degradedPrompt
    exact isSubstr_append_left _
      ((pyIn_iff (strL "likely") (strL "\n\nProvide a likely 3-line summary based on the title.")).mp
        (by decide))

/-- Witness for C7: a non-empty supplied content and an empty supplied
content, at concrete inputs. -/
theorem summarizer_prompt_content_witness :
    (availableContent (strL "http://u") (some (strL "body text")) (fun _ => []) ≠ []
      ∧ isSubstr (strL "t")
          (summarizePrompt (strL "t") (strL "http://u")
            (availableContent (strL "http://u") (some (strL "body text")) (fun _ => []))))
    ∧ (availableContent (strL "http://u") none (fun _ => []) = []
      ∧ summarizePrompt (strL "t") (strL "http://u")
            (availableContent (strL "http://u") none (fun _ => []))
          = degradedPrompt (strL "t") (strL "http://u")) :=
  ⟨⟨by decide,
    ((summarizer_prompt_content (strL "t") (strL "http://u") (some (strL "body text"))
        (fun _ => []) (fun _ => [])).2.1 (by decide)).1⟩,
   ⟨by decide,
    ((summarizer_prompt_content (strL "t") (strL "http://u") none
        (fun _ => []) (fun _ => [])).2.2 (by decide)).1⟩⟩

/-- Heap view of the pipeline's record handling, used to state the frame
property (C9).  The store is the list of live article records; a record's
identity is its index.  `article.copy()` allocates a fresh record at the end
of the store. -/
def copyRecord (st : List Article) (a : Article) : List Article × Nat :=
  (st ++ [a], st.length)

/-- `item["summary"] = s`: write the summary field of the record at index
`i` of the store. -/
def setSummary (st : List Article) (i : Nat) (s : List Char) : List Article :=
  st.set i { st.getD i default with summary := some s }

/-- Lines 195-200 on the heap view: for each selected article, produce the
summary, copy the record, write the summary into the copy, and collect the
copy's index. -/
def summarizeSelected (judgeSum fetchF : List Char → List Char) :
    List Article → List Article → List Article × List Nat
  | st, [] => (st, [])
  | st, a :: rest =>
    let s := summarize_article a.title a.link none fetchF judgeSum
    let p := copyRecord st a
    let st2 := setSummary p.1 p.2 s
    let pr := summarizeSelected judgeSum fetchF st2 rest
    (pr.1, p.2 :: pr.2)

/-- Lines 191-202, heap view of `process_category`: the whole store is the
category's input pool; the result is the final store and the indices of the
processed (fresh) records. -/
def process_category_heap (category : List Char) (st : List Article)
    (judgeSel judgeSum fetchF : List Char → List Char) : List Article × List Nat :=
  summarizeSelected judgeSum fetchF st (select_top_articles category st judgeSel).1

theorem getD_append_self (st : List Article) (a : Article) (L : List Article) (d : Article) :
    (st ++ a :: L).getD st.length d = a := by
  induction st with
  | nil => rfl
  | cons b st ih => simpa using ih

theorem set_append_self (st : List Article) (a x : Article) (L : List Article) :
    (st ++ a :: L).set st.length x = st ++ x :: L := by
  induction st with
  | nil => rfl
  | cons b st ih => simp [ih]

theorem summarizeSelected_eq (judgeSum fetchF : List Char → List Char) :
    ∀ (sel st : List Article),
      summarizeSelected judgeSum fetchF st sel
        = (st ++ sel.map (enrichArticle fetchF judgeSum), List.range' st.length sel.length) := by
  intro sel
  induction sel with
  | nil => intro st; simp [summarizeSelected, List.range']
  | cons a rest ih =>
    intro st
    simp only [summarizeSelected, copyRecord, setSummary]
    rw [getD_append_self st a [] default, set_append_self st a _ []]
    rw [ih]
    refine Prod.ext ?_ ?_
    · simp [enrichArticle, List.append_assoc]
    · simp [List.range'_succ]

theorem mem_range'_ge : ∀ (n s i : Nat), i ∈ List.range' s n → s ≤ i := by
  intro n
  induction n with
  | zero => intro s i h; simp [List.range'] at h
  | succ n ih =>
    intro s i h
    rcases List.mem_cons.mp h with rfl | h'
    · exact Nat.le_refl i
    · exact Nat.le_of_succ_le (ih (s + 1) i h')

theorem range'_map_getD : ∀ (L st : List Article),
    (List.range' st.length L.length).map (fun i => (st ++ L).getD i default) = L := by
  intro L
  induction L with
  | nil => intro st; simp
  | cons x L ih =>
    intro st
    simp only [List.length_cons, List.range'_succ, List.map_cons]
    rw [getD_append_self st x L default]
    have h1 : st ++ x :: L = (st ++ [x]) ++ L := by simp
    have h2 : st.length + 1 = (st ++ [x]).length := by simp
    rw [h1, h2, ih (st ++ [x])]

/-- C9 (heap view): the Category Processor never mutates the input article
records — the final store extends the input store without changing any
existing record (including any pre-existing summary field); the returned
indices all point at freshly allocated records; and those records are, in
selection order, exact copies of the selected articles with only the summary
field set. -/
theorem category_processor_no_mutation (category : List Char) (st : List Article)
    (judgeSel judgeSum fetchF : List Char → List Char) :
    ((process_category_heap category st judgeSel judgeSum fetchF).1
        = st ++ ((select_top_articles category st judgeSel).1).map (enrichArticle fetchF judgeSum))
    ∧ ((process_category_heap category st judgeSel judgeSum fetchF).2
        = List.range' st.length ((select_top_articles category st judgeSel).1).length)
    ∧ (∀ i ∈ (process_category_heap category st judgeSel judgeSum fetchF).2, st.length ≤ i)
    ∧ ((process_category_heap category st judgeSel judgeSum fetchF).2.map
          (fun i => (process_category_heap category st judgeSel judgeSum fetchF).1.getD i default)
        = ((select_top_articles category st judgeSel).1).map (enrichArticle fetchF judgeSum)) := by
  have he := summarizeSelected_eq judgeSum fetchF ((select_top_articles category st judgeSel).1) st
  refine ⟨?_, ?_, ?_, ?_⟩
  · rw [process_category_heap, he]
  · rw [process_category_heap, he]
  · intro i hi
    rw [process_category_heap, he] at hi
    exact mem_range'_ge _ _ _ hi
  · rw [process_category_heap, he]
    simp only
    rw [show ((select_top_articles category st judgeSel).1).length
          = (((select_top_articles category st judgeSel).1).map (enrichArticle fetchF judgeSum)).length
        from (List.length_map _ _).symm]
    exact range'_map_getD _ st

/-- Witness for C9 at a concrete one-article store. -/
theorem category_processor_no_mutation_witness :
    1 ∈ (process_category_heap (strL "technology") [artA]
          (fun _ => []) (fun _ => []) (fun _ => [])).2
    ∧ [artA].length ≤ 1 :=
  ⟨by decide,
   (category_processor_no_mutation (strL "technology") [artA]
      (fun _ => []) (fun _ => []) (fun _ => [])).2.2.1 1 (by decide)⟩

theorem uniqueFirst_subset : ∀ (l seen : List (List Char)) (c : List Char),
    c ∈ uniqueFirst seen l → c ∈ l := by
  intro l
  induction l with
  | nil => intro seen c h; simp [uniqueFirst] at h
  | cons d rest ih =>
    intro seen c h
    simp only [uniqueFirst] at h
    by_cases hd : d ∈ seen
    · rw [if_pos hd] at h
      exact List.mem_cons_of_mem _ (ih seen c h)
    · rw [if_neg hd] at h
      rcases List.mem_cons.mp h with rfl | h'
      · exact List.mem_cons_self _ _
      · exact List.mem_cons_of_mem _ (ih _ c h')

/-- C1 counterexample: the driver loop of `main` does NOT omit a category
whose input article list is empty — the key is kept, bound to the empty
list. -/
theorem driver_keeps_empty_category_key :
    mainDriver (fun _ => []) (fun _ => []) (fun _ => []) [(strL "x", [])]
      = [(strL "x", ([] : List Article))] := by decide

/-- C1 amended: the driver's output mapping has exactly the input mapping's
keys, in the same insertion order; a category with an empty input list is
kept and bound to the empty list rather than omitted; and the upstream
grouping (`get_articles_by_category`) never produces an empty article list,
so such a binding never arises from the real pipeline input. -/
theorem driver_preserves_keys_and_empty_pools (judgeSel judgeSum fetchF : List Char → List Char)
    (pools : List (List Char × List Article)) :
    ((mainDriver judgeSel judgeSum fetchF pools).map Prod.fst = pools.map Prod.fst)
    ∧ (∀ p ∈ pools, p.2 = [] →
        (p.1, ([] : List Article)) ∈ mainDriver judgeSel judgeSum fetchF pools)
    ∧ (∀ rows : List Article, ∀ q ∈ get_articles_by_category rows, q.2 ≠ []) := by
  refine ⟨?_, ?_, ?_⟩
  · simp [mainDriver, List.map_map, Function.comp_def]
  · intro p hp hempty
    apply List.mem_map.mpr
    refine ⟨p, hp, ?_⟩
    rw [hempty]
    simp [process_category, select_top_articles]
  · intro rows q hq
    rcases List.mem_map.mp hq with ⟨c, hc, rfl⟩
    have hc2 : c ∈ rows.map (fun r => r.category) := uniqueFirst_subset _ _ c hc
    rcases List.mem_map.mp hc2 with ⟨r, hr, rfl⟩
    intro hnil
    have hmem : r ∈ rows.filter (fun x => x.category == r.category) :=
      List.mem_filter.mpr ⟨hr, by simp⟩
    rw [show List.filter (fun x => x.category == r.category) rows = [] from hnil] at hmem
    cases hmem

/-- Witness for C1's amended statement: the empty-pool binding at a concrete
input, and a concrete non-empty grouping result. -/
theorem driver_preserves_keys_and_empty_pools_witness :
    ((strL "x", ([] : List Article)) ∈ ([(strL "x", [])] : List (List Char × List Article))
      ∧ (strL "x", ([] : List Article)) ∈
          mainDriver (fun _ => []) (fun _ => []) (fun _ => []) [(strL "x", [])])
    ∧ ((strL "technology", [artA]) ∈ get_articles_by_category [artA]
      ∧ ((strL "technology", [artA]) : List Char × List Article).2 ≠ []) :=
  ⟨⟨by decide,
    (driver_preserves_keys_and_empty_pools (fun _ => []) (fun _ => []) (fun _ => [])
        [(strL "x", [])]).2.1 (strL "x", []) (by decide) rfl⟩,
   ⟨by decide,
    (driver_preserves_keys_and_empty_pools (fun _ => []) (fun _ => []) (fun _ => []) []).2.2
      [artA] (strL "technology", [artA]) (by decide)⟩⟩
